import Mathlib

/-
Shallow embedding of the SmartPresence attendance pipeline core
(src/ai_module/recognition_system.py, src/ai_module/settings.py,
src/web_app/video_stream.py).

Times of day are modelled as zero-padded "HH:MM" strings (compared
lexicographically, as SQLite compares TEXT columns) where the source
compares strings, and as seconds-of-day naturals where the source does
datetime arithmetic.  Wall-clock timestamps (time.time()) are naturals.
Database effects are modelled explicitly: a lookup table is passed as a
list, and a possible sqlite exception is an `Except Unit` value or a
Boolean "the transaction raised no exception" flag.
-/

namespace SmartPresence

/-- Byte-wise (memcmp-style) ≤ on character lists: the comparison SQLite
applies to TEXT columns under the default BINARY collation (for the
ASCII "HH:MM" strings at hand this is also numeric order).  Written by
structural recursion so that it evaluates inside the kernel. -/
def charListLe : List Char → List Char → Bool
  | [], _ => true
  | _ :: _, [] => false
  | a :: as, b :: bs =>
    if a.toNat < b.toNat then true
    else if b.toNat < a.toNat then false
    else charListLe as bs

/-- memcmp-style ≤ on strings. -/
def strLeB (a b : String) : Bool := charListLe a.data b.data

/-- Python str.split(':') on the character list of a string. -/
def splitOnColon : List Char → List (List Char)
  | [] => [[]]
  | c :: cs =>
    if c = ':' then [] :: splitOnColon cs
    else
      match splitOnColon cs with
      | [] => [[c]]
      | p :: ps => (c :: p) :: ps

/-- Digit-string to Nat (the digits-only core of Python int()). -/
def digitsToNat? (cs : List Char) : Option Nat :=
  if cs = [] then none
  else if cs.all (fun c => c.isDigit) then
    some (cs.foldl (fun n c => n * 10 + (c.toNat - 48)) 0)
  else none

/-- Python int() on a settings string: optional sign then digits
(whitespace/underscore tolerance of CPython is not needed for the
values at hand). -/
def parseIntChars : List Char → Option Int
  | [] => none
  | c :: cs =>
    if c = '-' then (digitsToNat? cs).map (fun n => -(n : Int))
    else if c = '+' then (digitsToNat? cs).map (fun n => (n : Int))
    else (digitsToNat? (c :: cs)).map (fun n => (n : Int))

/-- ASCII str.lower(). -/
def lowerChar (c : Char) : Char :=
  if 65 ≤ c.toNat ∧ c.toNat ≤ 90 then Char.ofNat (c.toNat + 32) else c

/-- ASCII str.lower() on a string. -/
def pyLower (s : String) : String := String.mk (s.data.map lowerChar)

/-- A row of the class_schedules table (also the dict returned by
get_active_schedule; the synthetic force-on dict only carries id,
class_name, start_time, end_time, so the remaining fields of the
synthetic value are filler). -/
structure ScheduleRow where
  id : Int
  day_of_week : String
  start_time : String
  end_time : String
  class_name : String
  is_active : Bool
deriving DecidableEq, Repr

/-- The synthetic schedule returned when SYSTEM_MODE = force_on:
`{'id': -1, 'class_name': 'Manual', 'start_time': '00:00', 'end_time': '23:59'}`. -/
def forceOnSchedule : ScheduleRow :=
  { id := -1, day_of_week := "", start_time := "00:00", end_time := "23:59",
    class_name := "Manual", is_active := true }

/-- The WHERE clause of the query in get_active_schedule:
`day_of_week = ? AND is_active = 1 AND ? BETWEEN start_time AND end_time`.
SQL BETWEEN is inclusive at both endpoints. -/
def rowMatches (day t : String) (r : ScheduleRow) : Bool :=
  r.day_of_week == day && r.is_active && strLeB r.start_time t && strLeB t r.end_time

/-- `ORDER BY start_time LIMIT 1`: the first row (in table order) among
those with minimal start_time. -/
def pickEarliest : List ScheduleRow → Option ScheduleRow
  | [] => none
  | r :: rs =>
    match pickEarliest rs with
    | none => some r
    | some b => if strLeB r.start_time b.start_time then some r else some b

/-- FaceSystemThreaded.get_active_schedule.  `mode` is the SYSTEM_MODE
setting string; `day` is now.strftime of the weekday name, `t` the
current "HH:MM"; `db` is the class_schedules table or a sqlite error. -/
def get_active_schedule (mode day t : String)
    (db : Except Unit (List ScheduleRow)) : Option ScheduleRow :=
  if mode = "force_on" then some forceOnSchedule
  else if mode = "force_off" then none
  else
    match db with
    | .error _ => none
    | .ok rows => pickEarliest (rows.filter (rowMatches day t))

/-- `schedule['start_time'].split(':')` followed by `int(...)` on the first
two pieces and `now.replace(hour=..., minute=..., second=0)`.  Any failure
(missing piece, non-numeric piece, out-of-range hour/minute raising
ValueError in replace) is `none`. -/
def parseHM (s : String) : Option (Nat × Nat) :=
  match splitOnColon s.data with
  | h :: m :: _ =>
    match digitsToNat? h, digitsToNat? m with
    | some hh, some mm => if hh ≤ 23 ∧ mm ≤ 59 then some (hh, mm) else none
    | _, _ => none
  | _ => none

/-- FaceSystemThreaded.determine_status.  `nowT` is the current
seconds-of-day; `lateThreshold` is the LATE_THRESHOLD setting as an
integer, `none` when the settings cast failed (the source then gets the
default string back and `timedelta(minutes=...)` raises, landing in the
except branch). -/
def determine_status (schedule : Option ScheduleRow) (lateThreshold : Option Int)
    (nowT : Nat) : String :=
  match schedule with
  | none => "Present"
  | some s =>
    if s.id = -1 then "Present"
    else
      match parseHM s.start_time, lateThreshold with
      | some hm, some t =>
        if (nowT : Int) ≤ ((hm.1 * 3600 + hm.2 * 60 : Nat) : Int) + 60 * t then "On Time"
        else "Late"
      | _, _ => "Present"

/-- The mutable session state of FaceSystemThreaded: the `session_logged`
dict (used only as a set of keys), the `last_seen` dict (name → time.time()
timestamp; insertion-ordered association list, assignment replaces in
place or appends), `last_disappear_check`, and the `_current_schedule_key`
attribute (`none` models the attribute not yet set). -/
structure SessionState where
  session_logged : List String
  last_seen : List (String × Nat)
  last_disappear_check : Nat
  current_schedule_key : Option String
deriving DecidableEq, Repr

/-- Python dict assignment `d[k] = v`: replace in place if present,
else append at the end. -/
def updateLS : List (String × Nat) → String → Nat → List (String × Nat)
  | [], k, v => [(k, v)]
  | (k0, v0) :: rest, k, v =>
    if k0 = k then (k, v) :: rest else (k0, v0) :: updateLS rest k v

/-- A row inserted into attendance_logs by log_attendance.  `name` records
which student's id was looked up (the row itself stores only the id). -/
structure AttendanceRecord where
  name : String
  student_id : Int
  status : String
  schedule_id : Option Int
deriving DecidableEq, Repr

/-- A row inserted into attendance_logs by check_disappearances. -/
structure DisappearRecord where
  name : String
  student_id : Int
deriving DecidableEq, Repr

/-- The dedup key `f"{name}:{schedule_id}"`. -/
def sessionKey (name : String) (scheduleId : Int) : String :=
  name ++ ":" ++ toString scheduleId

/-- FaceSystemThreaded.log_attendance.  `schedule` is the result of the
internal get_active_schedule call; `students` the students table
(name → id); `insertOk` is false when the sqlite transaction (SELECT /
INSERT / commit) raises, which the source catches and logs; `nowClock`
is time.time(), `nowT` the seconds-of-day used by determine_status.
Returns the new state and the rows inserted. -/
def log_attendance (schedule : Option ScheduleRow) (students : List (String × Int))
    (lateThreshold : Option Int) (insertOk : Bool) (nowClock nowT : Nat)
    (name : String) (st : SessionState) : SessionState × List AttendanceRecord :=
  match schedule with
  | none => (st, [])
  | some s =>
    let key := sessionKey name s.id
    if key ∈ st.session_logged then
      ({ st with last_seen := updateLS st.last_seen name nowClock }, [])
    else if insertOk then
      match students.lookup name with
      | some sid =>
        let status := determine_status (some s) lateThreshold nowT
        let schedId : Option Int := if s.id ≠ -1 then some s.id else none
        ({ st with session_logged := key :: st.session_logged,
                   last_seen := updateLS st.last_seen name nowClock },
         [{ name := name, student_id := sid, status := status, schedule_id := schedId }])
      | none => (st, [])
    else (st, [])

/-- FaceSystemThreaded.maybe_reset_session: on a non-None schedule whose
fingerprint `_schedule_{id}_{start_time}` differs from the stored one,
store it and clear session_logged and last_seen; on None, return at once. -/
def scheduleFingerprint (s : ScheduleRow) : String :=
  "_schedule_" ++ toString s.id ++ "_" ++ s.start_time

def maybe_reset_session (schedule : Option ScheduleRow) (st : SessionState) :
    SessionState :=
  match schedule with
  | none => st
  | some s =>
    let newKey := scheduleFingerprint s
    if st.current_schedule_key = some newKey then st
    else { st with current_schedule_key := some newKey,
                   session_logged := [], last_seen := [] }

/-- The body of the per-student loop in check_disappearances (one
iteration over an entry of last_seen).  `thresholdSecs` is
DISAPPEAR_THRESHOLD * 60; `insertOk name` is false when that student's
sqlite transaction raises (caught by the bare except). -/
def sweepOne (thresholdSecs : Int) (students : List (String × Int))
    (insertOk : String → Bool) (now : Nat) (entry : String × Nat)
    (st : SessionState) : SessionState × List DisappearRecord :=
  let elapsed : Int := (now : Int) - (entry.2 : Int)
  if elapsed > thresholdSecs then
    let key := entry.1 ++ ":disappeared"
    if key ∈ st.session_logged then (st, [])
    else if insertOk entry.1 then
      match students.lookup entry.1 with
      | some sid =>
        ({ st with session_logged := key :: st.session_logged },
         [{ name := entry.1, student_id := sid }])
      | none => (st, [])
    else (st, [])
  else (st, [])

/-- The `for name, last_time in list(self.last_seen.items())` loop. -/
def sweep_loop (thresholdSecs : Int) (students : List (String × Int))
    (insertOk : String → Bool) (now : Nat) :
    List (String × Nat) → SessionState → SessionState × List DisappearRecord
  | [], st => (st, [])
  | e :: rest, st =>
    let step := sweepOne thresholdSecs students insertOk now e st
    let restRes := sweep_loop thresholdSecs students insertOk now rest step.1
    (restRes.1, step.2 ++ restRes.2)

/-- FaceSystemThreaded.check_disappearances.  `interval` is
RECHECK_INTERVAL, `disappearMin` is DISAPPEAR_THRESHOLD (minutes);
`schedule` the result of the internal get_active_schedule call. -/
def check_disappearances (interval disappearMin : Int)
    (schedule : Option ScheduleRow) (students : List (String × Int))
    (insertOk : String → Bool) (now : Nat) (st : SessionState) :
    SessionState × List DisappearRecord :=
  if (now : Int) - (st.last_disappear_check : Int) < interval then (st, [])
  else
    let st1 := { st with last_disappear_check := now }
    match schedule with
    | none => (st1, [])
    | some _ => sweep_loop (disappearMin * 60) students insertOk now st.last_seen st1

/-- The per-face tail of ai_loop: `name = "Unknown"`, overwritten with
`known_names[best_match_index]` when `True in matches`, in which case
log_attendance is called; `best` is the argmin index when a match exists.
Returns the recognizedName of the DetectionResult plus the session
effects. -/
def process_face (knownNames : List String) (best : Option Nat)
    (schedule : Option ScheduleRow) (students : List (String × Int))
    (lateThreshold : Option Int) (insertOk : Bool) (nowClock nowT : Nat)
    (st : SessionState) : String × SessionState × List AttendanceRecord :=
  match best with
  | none => ("Unknown", st, [])
  | some i =>
    let name := knownNames.getD i "Unknown"
    let r := log_attendance schedule students lateThreshold insertOk nowClock nowT name st
    (name, r.1, r.2)

/-- Repeated sightings of one student within one slot (the schedule held
fixed, no maybe_reset_session in between): fold log_attendance over a
list of (time.time(), seconds-of-day) stamps. -/
def process_sightings (s : ScheduleRow) (students : List (String × Int))
    (lateThreshold : Option Int) (insertOk : Bool) (name : String) :
    List (Nat × Nat) → SessionState → SessionState × List AttendanceRecord
  | [], st => (st, [])
  | t :: ts, st =>
    let step := log_attendance (some s) students lateThreshold insertOk t.1 t.2 name st
    let rest := process_sightings s students lateThreshold insertOk name ts step.1
    (rest.1, step.2 ++ rest.2)

/-- A dynamically-typed Python value, as far as SettingsManager.get
needs one (strings from the DB / DEFAULTS, caller defaults of any of
these shapes, cast results, and Python None). -/
inductive PyVal where
  | str (s : String)
  | int (n : Int)
  | bool (b : Bool)
  | none
deriving DecidableEq, Repr

/-- Python str() on a PyVal, as used by the bool-cast branch. -/
def pyStr : PyVal → String
  | .str s => s
  | .int n => toString n
  | .bool b => if b then "True" else "False"
  | .none => "None"

/-- `str(final_val).lower() in ('true', '1', 'yes', 'on')`. -/
def pyTruthyStr (v : PyVal) : Bool :=
  pyLower (pyStr v) ∈ ["true", "1", "yes", "on"]

/-- SettingsManager.DEFAULTS. -/
def DEFAULTS : List (String × String) :=
  [("DETECTOR_MODEL", "dlib"), ("TOLERANCE", "0.5"), ("DETECTION_SCALE", "0.5"),
   ("LATE_THRESHOLD", "10"), ("DISAPPEAR_THRESHOLD", "15"),
   ("RECHECK_INTERVAL", "300"), ("SYSTEM_MODE", "auto"), ("FRAME_SKIP", "3")]

/-- `cls.DEFAULTS.get(key)` (returns Python None on a key with no
class-level default). -/
def defaultsGet (key : String) : Option String := DEFAULTS.lookup key

/-- The fallback of SettingsManager.get when the resolved value is
missing/empty or the cast failed: the caller default if one was given,
else `cls.DEFAULTS.get(key)` — as the stored string, with no cast applied. -/
def fallbackDefault (key : String) (default : Option PyVal) : PyVal :=
  match default with
  | some d => d
  | none =>
    match defaultsGet key with
    | some s => PyVal.str s
    | none => PyVal.none

/-- SettingsManager._fetch_from_db.  `db` is the settings-table lookup:
an error for a sqlite exception, `.ok none` for no row, `.ok (some cell)`
for a row whose value cell may itself be NULL (Python None). -/
def fetch_from_db (db : Except Unit (Option (Option String))) (key : String) :
    Option String :=
  match db with
  | .ok (some cell) => cell
  | _ => some ((defaultsGet key).getD "")

/-- The `final_val` computed by SettingsManager.get before casting:
cache value if present, else the DB fetch; then the
`val is None or val == ''` fallback chain. -/
def resolved_val (key : String) (default : Option PyVal)
    (cache : Option (Option String)) (db : Except Unit (Option (Option String))) :
    PyVal :=
  let val : Option String :=
    match cache with
    | some v => v
    | none => fetch_from_db db key
  match val with
  | none => fallbackDefault key default
  | some s => if s = "" then fallbackDefault key default else PyVal.str s

/-- SettingsManager.get.  `castIsBool` models `type_cast == bool`;
`cast` models applying `type_cast`, with `.error ()` for an exception
(caught by the source's try/except). -/
def settings_get (key : String) (default : Option PyVal) (castIsBool : Bool)
    (cast : PyVal → Except Unit PyVal) (cache : Option (Option String))
    (db : Except Unit (Option (Option String))) : PyVal :=
  let finalVal := resolved_val key default cache db
  if castIsBool then PyVal.bool (pyTruthyStr finalVal)
  else
    match cast finalVal with
    | .ok r => r
    | .error _ => fallbackDefault key default

/-- A concrete type_cast for use at concrete inputs: Python int() on a
settings value (fails on non-numeric strings and on None). -/
def pyIntCast : PyVal → Except Unit PyVal
  | .str s => match parseIntChars s.data with
    | some n => .ok (.int n)
    | none => .error ()
  | .int n => .ok (.int n)
  | .bool b => .ok (.int (if b then 1 else 0))
  | .none => .error ()

/-- VideoStream._open_camera: the sequence of sleeps performed, given
the success/failure outcome of each attempt made before cancellation
(`outcomes` ends at cancellation; a `true` outcome returns the handle
with no further wait).  `backoff` is the current wait; each failure
sleeps `backoff` then sets `backoff = min(backoff * 2, max_backoff)`
with max_backoff = 10.  Waits are in whole seconds (the float values
taken are exactly 1, 2, 4, 8, 10). -/
def openWaits : List Bool → Nat → List Nat
  | [], _ => []
  | ok :: rest, backoff =>
    if ok then [] else backoff :: openWaits rest (min (backoff * 2) 10)

/-- One call of _open_camera starts from `backoff = 1.0`. -/
def open_camera_waits (outcomes : List Bool) : List Nat :=
  openWaits outcomes 1

/-- memcmp-style strict < on character lists (used to state the
half-open-interval reading of the spec, which the source does not
implement). -/
def charListLt : List Char → List Char → Bool
  | [], [] => false
  | [], _ :: _ => true
  | _ :: _, [] => false
  | a :: as, b :: bs =>
    if a.toNat < b.toNat then true
    else if b.toNat < a.toNat then false
    else charListLt as bs

/-- memcmp-style strict < on strings. -/
def strLtB (a b : String) : Bool := charListLt a.data b.data

/- ── Order lemmas for the memcmp comparison ── -/

theorem charListLe_cons (a b : Char) (as bs : List Char) :
    charListLe (a :: as) (b :: bs) = true ↔
      a.toNat < b.toNat ∨ (a.toNat = b.toNat ∧ charListLe as bs = true) := by
  simp only [charListLe]
  split_ifs with h1 h2
  · simp [h1]
  · constructor
    · intro h; simp at h
    · rintro (h | ⟨h, -⟩) <;> omega
  · have he : a.toNat = b.toNat := by omega
    constructor
    · intro h; exact Or.inr ⟨he, h⟩
    · rintro (h | ⟨-, h⟩)
      · exact absurd h h1
      · exact h

theorem charListLe_refl : ∀ (a : List Char), charListLe a a = true
  | [] => rfl
  | c :: cs => by
    rw [charListLe_cons]
    exact Or.inr ⟨rfl, charListLe_refl cs⟩

theorem charListLe_total : ∀ (a b : List Char),
    charListLe a b = true ∨ charListLe b a = true
  | [], _ => Or.inl rfl
  | _ :: _, [] => Or.inr rfl
  | a :: as, b :: bs => by
    rw [charListLe_cons, charListLe_cons]
    rcases Nat.lt_trichotomy a.toNat b.toNat with h | h | h
    · exact Or.inl (Or.inl h)
    · rcases charListLe_total as bs with hr | hr
      · exact Or.inl (Or.inr ⟨h, hr⟩)
      · exact Or.inr (Or.inr ⟨h.symm, hr⟩)
    · exact Or.inr (Or.inl h)

theorem charListLe_trans : ∀ (a b c : List Char),
    charListLe a b = true → charListLe b c = true → charListLe a c = true
  | [], _, _, _, _ => rfl
  | _ :: _, [], _, h1, _ => by simp [charListLe] at h1
  | _ :: _, _ :: _, [], _, h2 => by simp [charListLe] at h2
  | a :: as, b :: bs, c :: cs, h1, h2 => by
    rw [charListLe_cons] at h1 h2 ⊢
    rcases h1 with h1 | ⟨h1e, h1r⟩ <;> rcases h2 with h2 | ⟨h2e, h2r⟩
    · exact Or.inl (Nat.lt_trans h1 h2)
    · exact Or.inl (h2e ▸ h1)
    · exact Or.inl (h1e ▸ h2)
    · exact Or.inr ⟨h1e.trans h2e, charListLe_trans as bs cs h1r h2r⟩

theorem strLeB_refl (a : String) : strLeB a a = true := charListLe_refl a.data

theorem strLeB_total (a b : String) : strLeB a b = true ∨ strLeB b a = true :=
  charListLe_total a.data b.data

theorem strLeB_trans {a b c : String} (h1 : strLeB a b = true)
    (h2 : strLeB b c = true) : strLeB a c = true :=
  charListLe_trans a.data b.data c.data h1 h2

/- ── Properties of pickEarliest (ORDER BY start_time LIMIT 1) ── -/

theorem pickEarliest_eq_none : ∀ (l : List ScheduleRow),
    pickEarliest l = none → l = []
  | [], _ => rfl
  | r :: rs, h => by
    rcases hr : pickEarliest rs with _ | b <;>
      simp only [pickEarliest, hr] at h
    · simp at h
    · split at h <;> simp at h

theorem pickEarliest_sound : ∀ (l : List ScheduleRow) (r : ScheduleRow),
    pickEarliest l = some r →
      r ∈ l ∧ ∀ x ∈ l, strLeB r.start_time x.start_time = true
  | [], r, h => by simp [pickEarliest] at h
  | r0 :: rs, r, h => by
    rcases hr : pickEarliest rs with _ | b <;>
      simp only [pickEarliest, hr] at h
    · have hnil := pickEarliest_eq_none rs hr
      subst hnil
      have hr0 : r0 = r := by simpa using h
      subst hr0
      exact ⟨by simp, by simpa using strLeB_refl r0.start_time⟩
    · obtain ⟨hbmem, hbmin⟩ := pickEarliest_sound rs b hr
      split_ifs at h with hle
      · have hr0 : r0 = r := by simpa using h
        subst hr0
        refine ⟨by simp, ?_⟩
        intro x hx
        rcases List.mem_cons.mp hx with hx | hx
        · exact hx ▸ strLeB_refl r0.start_time
        · exact strLeB_trans hle (hbmin x hx)
      · have hb : b = r := by simpa using h
        subst hb
        refine ⟨List.mem_cons_of_mem r0 hbmem, ?_⟩
        intro x hx
        rcases List.mem_cons.mp hx with hx | hx
        · subst hx
          rcases strLeB_total x.start_time b.start_time with ht | ht
          · exact absurd ht hle
          · exact ht
        · exact hbmin x hx

theorem rowMatches_iff (day t : String) (r : ScheduleRow) :
    rowMatches day t r = true ↔
      r.day_of_week = day ∧ r.is_active = true ∧
      strLeB r.start_time t = true ∧ strLeB t r.end_time = true := by
  simp [rowMatches, Bool.and_eq_true, and_assoc]

/- ── Claim theorems ── -/

/-- C4 (amended): in auto mode get_active_schedule returns a timetable
entry only if its day_of_week equals the current weekday, its is-active
flag is set, and the CLOSED interval [start_time, end_time] contains the
current time-of-day (the source query uses SQL BETWEEN, inclusive at
both ends — not the half-open interval the claim states); when multiple
entries match, one with the earliest start_time is returned; when none
match, when the mode is force_off, or when the timetable lookup raises,
no active schedule is returned. -/
theorem C4_active_schedule (mode day t : String) (rows : List ScheduleRow)
    (db : Except Unit (List ScheduleRow)) :
    get_active_schedule "force_off" day t db = none
    ∧ (mode ≠ "force_on" → get_active_schedule mode day t (Except.error ()) = none)
    ∧ (mode ≠ "force_on" → mode ≠ "force_off" →
        (∀ r, get_active_schedule mode day t (Except.ok rows) = some r →
          r ∈ rows ∧ r.day_of_week = day ∧ r.is_active = true
          ∧ strLeB r.start_time t = true ∧ strLeB t r.end_time = true
          ∧ ∀ x ∈ rows, rowMatches day t x = true →
              strLeB r.start_time x.start_time = true)
        ∧ (get_active_schedule mode day t (Except.ok rows) = none →
            ∀ x ∈ rows, rowMatches day t x = false)) := by
  refine ⟨?_, ?_, ?_⟩
  · unfold get_active_schedule
    rw [if_neg (by decide), if_pos rfl]
  · intro h
    unfold get_active_schedule
    rw [if_neg h]
    split_ifs <;> rfl
  · intro h1 h2
    constructor
    · intro r hr
      unfold get_active_schedule at hr
      rw [if_neg h1, if_neg h2] at hr
      obtain ⟨hmem, hmin⟩ := pickEarliest_sound _ _ hr
      obtain ⟨hrows, hmatch⟩ := List.mem_filter.mp hmem
      obtain ⟨hd, ha, hs, he⟩ := (rowMatches_iff day t r).mp hmatch
      refine ⟨hrows, hd, ha, hs, he, ?_⟩
      intro x hx hmx
      exact hmin x (List.mem_filter.mpr ⟨hx, hmx⟩)
    · intro hn x hx
      unfold get_active_schedule at hn
      rw [if_neg h1, if_neg h2] at hn
      have hnil := pickEarliest_eq_none _ hn
      have := List.filter_eq_nil_iff.mp hnil x hx
      exact Bool.not_eq_true _ ▸ (by simpa using this)

/-- C4 witness: a timetable error in auto mode yields no active schedule. -/
theorem C4_witness :
    get_active_schedule "auto" "Monday" "09:30" (Except.error ()) = none :=
  (C4_active_schedule "auto" "Monday" "09:30" [] (Except.error ())).2.1 (by decide)

/-- C4 counterexample: the claim says the half-open interval
[start_time, end_time) must contain the current time; but at
t = end_time = "10:00" the source query (BETWEEN, inclusive) still
returns the schedule, even though strLtB t end_time fails. -/
theorem C4_counterexample :
    get_active_schedule "auto" "Monday" "10:00"
        (Except.ok [⟨1, "Monday", "09:00", "10:00", "Math", true⟩])
      = some ⟨1, "Monday", "09:00", "10:00", "Math", true⟩
    ∧ strLtB "10:00"
        (⟨1, "Monday", "09:00", "10:00", "Math", true⟩ : ScheduleRow).end_time
      = false := by decide

/-- C5: determine_status returns "Present" for the synthetic force-on
schedule (id = -1); otherwise, with class_start = today at
schedule.start_time (seconds-of-day h*3600 + m*60), it returns "On Time"
exactly when now ≤ class_start + lateThreshold minutes and "Late" when
now is later; any failure to parse the schedule's time fields (and a
non-integer LATE_THRESHOLD, which makes timedelta raise) yields
"Present". -/
theorem C5_determine_status (s : ScheduleRow) (lt : Option Int) (tmin : Int)
    (hm : Nat × Nat) (nowT : Nat) :
    (s.id = -1 → determine_status (some s) lt nowT = "Present")
    ∧ (s.id ≠ -1 → parseHM s.start_time = some hm → lt = some tmin →
        determine_status (some s) lt nowT
          = if (nowT : Int) ≤ ((hm.1 * 3600 + hm.2 * 60 : Nat) : Int) + 60 * tmin
            then "On Time" else "Late")
    ∧ (s.id ≠ -1 → parseHM s.start_time = none →
        determine_status (some s) lt nowT = "Present")
    ∧ (s.id ≠ -1 → lt = none → determine_status (some s) lt nowT = "Present") := by
  refine ⟨?_, ?_, ?_, ?_⟩
  · intro h
    simp [determine_status, h]
  · intro h1 h2 h3
    subst h3
    simp [determine_status, h1, h2]
  · intro h1 h2
    cases lt <;> simp [determine_status, h1, h2]
  · intro h1 h2
    subst h2
    cases hp : parseHM s.start_time <;> simp [determine_status, h1, hp]

/-- C5 witness: a 09:00 class with a 10-minute threshold marks a
09:05 sighting "On Time". -/
theorem C5_witness :
    determine_status (some ⟨1, "Monday", "09:00", "10:00", "Math", true⟩)
      (some 10) 32700 = "On Time" := by
  rw [(C5_determine_status ⟨1, "Monday", "09:00", "10:00", "Math", true⟩
      (some 10) 10 (9, 0) 32700).2.1 (by decide) (by decide) rfl]
  decide

/-- C7: if the attendance insert transaction fails, log_attendance
leaves the session state unchanged (dedup key not marked, LastSeen not
updated) and returns normally (the exception is caught and logged). -/
theorem C7_insert_failure (s : ScheduleRow) (students : List (String × Int))
    (lt : Option Int) (nc nt : Nat) (name : String) (st : SessionState)
    (h : sessionKey name s.id ∉ st.session_logged) :
    log_attendance (some s) students lt false nc nt name st = (st, []) := by
  simp [log_attendance, h]

/-- C7 witness. -/
theorem C7_witness :
    log_attendance (some ⟨1, "Monday", "09:00", "10:00", "Math", true⟩)
        [("Alice", 1)] (some 10) false 100 32700 "Alice" ⟨[], [], 0, none⟩
      = (⟨[], [], 0, none⟩, []) :=
  C7_insert_failure _ _ _ _ _ "Alice" _ (by decide)

/-- C2 (amended): whenever a NON-None active schedule's fingerprint
(id + start_time) differs from the stored session fingerprint, the
session clears the dedup set and the LastSeen map (storing the new
fingerprint); when the fingerprint is unchanged nothing happens; and
when no schedule is active maybe_reset_session returns immediately, so
a transition into no-schedule does NOT clear the session (and the
fingerprint is not updated). -/
theorem C2_reset_amended (s : ScheduleRow) (st : SessionState) :
    maybe_reset_session none st = st
    ∧ (st.current_schedule_key ≠ some (scheduleFingerprint s) →
        maybe_reset_session (some s) st
          = { session_logged := [], last_seen := [],
              last_disappear_check := st.last_disappear_check,
              current_schedule_key := some (scheduleFingerprint s) })
    ∧ (st.current_schedule_key = some (scheduleFingerprint s) →
        maybe_reset_session (some s) st = st) := by
  refine ⟨rfl, ?_, ?_⟩
  · intro h
    simp [maybe_reset_session, h]
  · intro h
    simp [maybe_reset_session, h]

/-- C2 witness: a different schedule fingerprint clears both maps. -/
theorem C2_witness :
    maybe_reset_session (some ⟨2, "Monday", "08:30", "10:30", "Phys", true⟩)
        ⟨["Alice:1"], [("Alice", 50)], 7, some "_schedule_1_09:00"⟩
      = ⟨[], [], 7, some "_schedule_2_08:30"⟩ := by
  rw [(C2_reset_amended ⟨2, "Monday", "08:30", "10:30", "Phys", true⟩
      ⟨["Alice:1"], [("Alice", 50)], 7, some "_schedule_1_09:00"⟩).2.1 (by decide)]
  decide

/-- C2 counterexample: on the transition from an active schedule to no
schedule, the claim says the dedup set is cleared; the source returns
immediately on None and the dedup set survives. -/
theorem C2_counterexample :
    (maybe_reset_session none
        ⟨["Alice:1"], [("Alice", 50)], 0, some "_schedule_1_09:00"⟩).session_logged
      = ["Alice:1"]
    ∧ (["Alice:1"] : List String) ≠ [] := by decide

/-- C3 (amended): a recognized sighting updates LastSeen only while a
schedule is active: a deduped repeat always refreshes it; a first
sighting sets it only when the student is found and the insert
transaction succeeds; and with NO active schedule log_attendance
returns immediately — the sighting is not tracked in LastSeen at all
(contrary to the claim), and nothing is logged. -/
theorem C3_lastseen_amended (s : ScheduleRow) (students : List (String × Int))
    (sid : Int) (lt : Option Int) (ok : Bool) (nc nt : Nat) (name : String)
    (st : SessionState) :
    log_attendance none students lt ok nc nt name st = (st, [])
    ∧ (sessionKey name s.id ∈ st.session_logged →
        log_attendance (some s) students lt ok nc nt name st
          = ({ st with last_seen := updateLS st.last_seen name nc }, []))
    ∧ (sessionKey name s.id ∉ st.session_logged →
        students.lookup name = some sid →
        (log_attendance (some s) students lt true nc nt name st).1.last_seen
          = updateLS st.last_seen name nc)
    ∧ (sessionKey name s.id ∉ st.session_logged →
        students.lookup name = none →
        log_attendance (some s) students lt true nc nt name st = (st, []))
    ∧ (sessionKey name s.id ∉ st.session_logged →
        log_attendance (some s) students lt false nc nt name st = (st, [])) := by
  refine ⟨rfl, ?_, ?_, ?_, ?_⟩
  · intro h
    simp [log_attendance, h]
  · intro h1 h2
    simp [log_attendance, h1, h2]
  · intro h1 h2
    simp [log_attendance, h1, h2]
  · intro h
    simp [log_attendance, h]

/-- C3 witness: a deduped repeat refreshes LastSeen. -/
theorem C3_witness :
    log_attendance (some ⟨1, "Monday", "09:00", "10:00", "Math", true⟩)
        [("Alice", 1)] (some 10) true 200 32800 "Alice"
        ⟨["Alice:1"], [("Alice", 100)], 0, none⟩
      = (⟨["Alice:1"], [("Alice", 200)], 0, none⟩, []) := by
  rw [(C3_lastseen_amended ⟨1, "Monday", "09:00", "10:00", "Math", true⟩
      [("Alice", 1)] 1 (some 10) true 200 32800 "Alice"
      ⟨["Alice:1"], [("Alice", 100)], 0, none⟩).2.1 (by decide)]
  decide

/-- C3 counterexample: a recognized (non-Unknown) sighting of "Alice"
while no schedule is active leaves LastSeen empty — the claim says the
sighting is tracked for LastSeen purposes only, but the source's early
return skips the LastSeen update entirely. -/
theorem C3_counterexample :
    process_face ["Alice"] (some 0) none [("Alice", 1)] (some 10) true 100 32700
        ⟨[], [], 0, none⟩
      = ("Alice", ⟨[], [], 0, none⟩, [])
    ∧ ("Alice" : String) ≠ "Unknown" := by decide

/-- C9: provided "Unknown" is not itself an enrolled gallery name, a
detected face whose recognizedName is "Unknown" (no gallery match)
creates no attendance record, adds no dedup key, and adds/refreshes no
LastSeen entry: the session state is returned unchanged. -/
theorem C9_unknown_never_logged (knownNames : List String) (best : Option Nat)
    (schedule : Option ScheduleRow) (students : List (String × Int))
    (lt : Option Int) (ok : Bool) (nc nt : Nat) (st : SessionState)
    (hU : "Unknown" ∉ knownNames)
    (hB : ∀ i, best = some i → i < knownNames.length) :
    (process_face knownNames best schedule students lt ok nc nt st).1 = "Unknown" →
      process_face knownNames best schedule students lt ok nc nt st
        = ("Unknown", st, []) := by
  cases best with
  | none => intro _; rfl
  | some i =>
    intro h
    have hi := hB i rfl
    have hget : knownNames.getD i "Unknown" = "Unknown" := h
    rw [List.getD_eq_getElem knownNames "Unknown" hi] at hget
    exact absurd (hget ▸ List.getElem_mem hi) hU

/-- C9 witness. -/
theorem C9_witness :
    process_face ["Alice"] none (some ⟨1, "Monday", "09:00", "10:00", "Math", true⟩)
        [("Alice", 1)] (some 10) true 100 32700 ⟨[], [], 0, none⟩
      = ("Unknown", ⟨[], [], 0, none⟩, []) :=
  C9_unknown_never_logged ["Alice"] none _ _ _ _ _ _ _ (by decide)
    (fun _ h => nomatch h) (by decide)

/- ── Backoff lemmas for _open_camera ── -/

theorem openWaits_cons_true (rest : List Bool) (b : Nat) :
    openWaits (true :: rest) b = [] := rfl

theorem openWaits_cons_false (rest : List Bool) (b : Nat) :
    openWaits (false :: rest) b = b :: openWaits rest (min (b * 2) 10) := rfl

theorem openWaits_head : ∀ (outs : List Bool) (b w : Nat) (l : List Nat),
    openWaits outs b = w :: l → w = b
  | [], _, _, _, h => by simp [openWaits] at h
  | true :: rest, b, w, l, h => by rw [openWaits_cons_true] at h; simp at h
  | false :: rest, b, w, l, h => by
    rw [openWaits_cons_false] at h
    exact (List.cons.injEq _ _ _ _ ▸ h).1.symm

theorem openWaits_bounds : ∀ (outs : List Bool) (b : Nat), 1 ≤ b → b ≤ 10 →
    ∀ w ∈ openWaits outs b, 1 ≤ w ∧ w ≤ 10
  | [], _, _, _, _, hw => by simp [openWaits] at hw
  | true :: rest, b, h1, h10, w, hw => by rw [openWaits_cons_true] at hw; simp at hw
  | false :: rest, b, h1, h10, w, hw => by
    rw [openWaits_cons_false] at hw
    rcases List.mem_cons.mp hw with hw | hw
    · exact hw ▸ ⟨h1, h10⟩
    · exact openWaits_bounds rest (min (b * 2) 10) (by omega) (by omega) w hw

theorem openWaits_chain : ∀ (outs : List Bool) (b : Nat),
    List.Chain' (fun x y => y = min (x * 2) 10) (openWaits outs b)
  | [], _ => List.chain'_nil
  | true :: rest, b => by rw [openWaits_cons_true]; exact List.chain'_nil
  | false :: rest, b => by
    rw [openWaits_cons_false, List.chain'_cons']
    refine ⟨?_, openWaits_chain rest (min (b * 2) 10)⟩
    intro y hy
    cases hrec : openWaits rest (min (b * 2) 10) with
    | nil => rw [hrec] at hy; simp at hy
    | cons w l =>
      rw [hrec] at hy
      simp only [List.head?_cons, Option.mem_def, Option.some.injEq] at hy
      subst hy
      exact openWaits_head rest _ w l hrec

theorem openWaits_mono : ∀ (outs : List Bool) (b : Nat), b ≤ 10 →
    List.Chain' (fun x y => x ≤ y) (openWaits outs b)
  | [], _, _ => List.chain'_nil
  | true :: rest, b, _ => by rw [openWaits_cons_true]; exact List.chain'_nil
  | false :: rest, b, h10 => by
    rw [openWaits_cons_false, List.chain'_cons']
    refine ⟨?_, openWaits_mono rest (min (b * 2) 10) (by omega)⟩
    intro y hy
    cases hrec : openWaits rest (min (b * 2) 10) with
    | nil => rw [hrec] at hy; simp at hy
    | cons w l =>
      rw [hrec] at hy
      simp only [List.head?_cons, Option.mem_def, Option.some.injEq] at hy
      have := openWaits_head rest _ w l hrec
      omega

/-- C8: within one _open_camera call, the waits between failed open
attempts start at 1 second, follow wait' = min(wait * 2, 10) (doubling
capped at 10s, hence non-decreasing and within [1, 10]), for however
many failures occur before success or cancellation; every call —
including the reconnect after a successful open — re-initializes the
backoff to 1, so the next failure sequence starts from 1 again. -/
theorem C8_backoff (outs : List Bool) :
    (∀ w l, open_camera_waits outs = w :: l → w = 1)
    ∧ List.Chain' (fun x y => y = min (x * 2) 10) (open_camera_waits outs)
    ∧ (∀ w ∈ open_camera_waits outs, 1 ≤ w ∧ w ≤ 10)
    ∧ List.Chain' (fun x y => x ≤ y) (open_camera_waits outs) :=
  ⟨fun w l h => openWaits_head outs 1 w l h,
   openWaits_chain outs 1,
   openWaits_bounds outs 1 (by omega) (by omega),
   openWaits_mono outs 1 (by omega)⟩

/-- C8 witness: after five straight failures the waits are bounded by
10 and the first wait of a fresh call is 1. -/
theorem C8_witness :
    open_camera_waits [false, false, false, false, false] = [1, 2, 4, 8, 10]
    ∧ (1 ≤ 10 ∧ 10 ≤ 10) ∧ (1 : Nat) = 1 :=
  ⟨by decide,
   (C8_backoff [false, false, false, false, false]).2.2.1 10 (by decide),
   (C8_backoff [false, false, false, false, false]).1 1 [2, 4, 8, 10] (by decide)⟩

/-- C10: SettingsManager.get never raises (it is a total function of
its modelled inputs); when applying type_cast to the resolved value
fails, it returns the caller-supplied default if one was given,
otherwise the class-level DEFAULTS string for the key as stored, with
no cast applied (so the fallback may not have the requested type); when
the cast succeeds its result is returned; the bool cast never raises. -/
theorem C10_settings_get (key : String) (default : Option PyVal)
    (cast : PyVal → Except Unit PyVal) (cache : Option (Option String))
    (db : Except Unit (Option (Option String))) :
    (cast (resolved_val key default cache db) = Except.error () →
      settings_get key default false cast cache db = fallbackDefault key default)
    ∧ (∀ r, cast (resolved_val key default cache db) = Except.ok r →
        settings_get key default false cast cache db = r)
    ∧ settings_get key default true cast cache db
        = PyVal.bool (pyTruthyStr (resolved_val key default cache db)) := by
  refine ⟨?_, ?_, rfl⟩
  · intro h
    simp [settings_get, h]
  · intro r h
    simp [settings_get, h]

/-- C10 witness: with a garbage cached value for RECHECK_INTERVAL and an
int cast, get falls back to the stored default string "300" (not an
int). -/
theorem C10_witness :
    settings_get "RECHECK_INTERVAL" none false pyIntCast (some (some "oops"))
        (Except.ok none)
      = PyVal.str "300" := by
  rw [(C10_settings_get "RECHECK_INTERVAL" none pyIntCast (some (some "oops"))
      (Except.ok none)).1 rfl]
  decide

/- ── Dedup lemmas for log_attendance / process_sightings ── -/

theorem log_attendance_logged_eq (s : ScheduleRow) (students : List (String × Int))
    (lt : Option Int) (ok : Bool) (nc nt : Nat) (name : String) (st : SessionState)
    (h : sessionKey name s.id ∈ st.session_logged) :
    log_attendance (some s) students lt ok nc nt name st
      = ({ st with last_seen := updateLS st.last_seen name nc }, []) := by
  simp [log_attendance, h]

theorem log_attendance_first_eq (s : ScheduleRow) (students : List (String × Int))
    (sid : Int) (lt : Option Int) (nc nt : Nat) (name : String) (st : SessionState)
    (hkey : sessionKey name s.id ∉ st.session_logged)
    (hsid : students.lookup name = some sid) :
    log_attendance (some s) students lt true nc nt name st
      = ({ st with session_logged := sessionKey name s.id :: st.session_logged,
                   last_seen := updateLS st.last_seen name nc },
         [{ name := name, student_id := sid,
            status := determine_status (some s) lt nt,
            schedule_id := if s.id ≠ -1 then some s.id else none }]) := by
  simp [log_attendance, hkey, hsid]

theorem process_sightings_logged (s : ScheduleRow) (students : List (String × Int))
    (lt : Option Int) (ok : Bool) (name : String) :
    ∀ (ts : List (Nat × Nat)) (st : SessionState),
      sessionKey name s.id ∈ st.session_logged →
      (process_sightings s students lt ok name ts st).2 = []
      ∧ (process_sightings s students lt ok name ts st).1.session_logged
          = st.session_logged
  | [], _, _ => ⟨rfl, rfl⟩
  | t :: ts, st, h => by
    have hstep := log_attendance_logged_eq s students lt ok t.1 t.2 name st h
    have hrec := process_sightings_logged s students lt ok name ts
      { st with last_seen := updateLS st.last_seen name t.1 } h
    simp only [process_sightings, hstep]
    exact ⟨by simp [hrec.1], hrec.2⟩

/-- C1: with an active schedule held fixed (no slot transition), a known
student (present in the students table) and a working attendance sink,
any nonempty run of recognized sightings of that student emits exactly
one attendance record; the dedup key name:scheduleId is marked after the
first sighting, and every sighting made while the key is marked only
refreshes that student's LastSeen and emits no record. -/
theorem C1_dedup (s : ScheduleRow) (students : List (String × Int)) (sid : Int)
    (lt : Option Int) (name : String) (t : Nat × Nat) (ts : List (Nat × Nat))
    (st : SessionState)
    (hsid : students.lookup name = some sid)
    (hkey : sessionKey name s.id ∉ st.session_logged) :
    (process_sightings s students lt true name (t :: ts) st).2.length = 1
    ∧ (process_sightings s students lt true name (t :: ts) st).1.session_logged
        = sessionKey name s.id :: st.session_logged
    ∧ ∀ (st2 : SessionState) (u : Nat × Nat),
        sessionKey name s.id ∈ st2.session_logged →
        log_attendance (some s) students lt true u.1 u.2 name st2
          = ({ st2 with last_seen := updateLS st2.last_seen name u.1 }, []) := by
  have hstep := log_attendance_first_eq s students sid lt t.1 t.2 name st hkey hsid
  have hrec := process_sightings_logged s students lt true name ts
    { st with session_logged := sessionKey name s.id :: st.session_logged,
              last_seen := updateLS st.last_seen name t.1 } (by simp)
  refine ⟨?_, ?_, fun st2 u h => log_attendance_logged_eq s students lt true u.1 u.2 name st2 h⟩
  · simp only [process_sightings, hstep]
    simp [hrec.1]
  · simp only [process_sightings, hstep]
    simpa using hrec.2

/-- C1 witness: three sightings of Alice in one slot yield one record. -/
theorem C1_witness :
    (process_sightings ⟨1, "Monday", "09:00", "10:00", "Math", true⟩ [("Alice", 1)]
        (some 10) true "Alice" [(100, 32700), (200, 32800), (300, 32900)]
        ⟨[], [], 0, none⟩).2.length = 1 :=
  (C1_dedup ⟨1, "Monday", "09:00", "10:00", "Math", true⟩ [("Alice", 1)] 1
    (some 10) "Alice" (100, 32700) [(200, 32800), (300, 32900)]
    ⟨[], [], 0, none⟩ (by decide) (by decide)).1

/- ── Sweep lemmas for check_disappearances ── -/

theorem sweepOne_spec (th : Int) (students : List (String × Int))
    (ok : String → Bool) (now : Nat) (entry : String × Nat) (st : SessionState) :
    (sweepOne th students ok now entry st).1.last_seen = st.last_seen
    ∧ (sweepOne th students ok now entry st).1.last_disappear_check
        = st.last_disappear_check
    ∧ (∀ k, k ∈ st.session_logged →
        k ∈ (sweepOne th students ok now entry st).1.session_logged)
    ∧ ∀ r ∈ (sweepOne th students ok now entry st).2,
        r.name = entry.1 ∧ (now : Int) - (entry.2 : Int) > th
        ∧ (entry.1 ++ ":disappeared") ∉ st.session_logged
        ∧ (entry.1 ++ ":disappeared")
            ∈ (sweepOne th students ok now entry st).1.session_logged := by
  by_cases h1 : (now : Int) - (entry.2 : Int) > th
  · by_cases h2 : (entry.1 ++ ":disappeared") ∈ st.session_logged
    · simp [sweepOne, h1, h2]
    · by_cases h3 : ok entry.1 = true
      · rcases hlk : students.lookup entry.1 with _ | sid
        · simp [sweepOne, h1, h2, h3, hlk]
        · have heq : sweepOne th students ok now entry st
              = ({ st with session_logged :=
                     (entry.1 ++ ":disappeared") :: st.session_logged },
                 [{ name := entry.1, student_id := sid }]) := by
            simp [sweepOne, h1, h2, h3, hlk]
          rw [heq]
          refine ⟨rfl, rfl, fun k hk => List.mem_cons_of_mem _ hk, ?_⟩
          intro r hr
          simp only [List.mem_singleton] at hr
          subst hr
          exact ⟨rfl, h1, h2, List.mem_cons_self _ _⟩
      · simp [sweepOne, h1, h2, h3]
  · simp [sweepOne, h1]

theorem sweep_loop_spec (th : Int) (students : List (String × Int))
    (ok : String → Bool) (now : Nat) :
    ∀ (entries : List (String × Nat)) (st : SessionState),
      (sweep_loop th students ok now entries st).1.last_seen = st.last_seen
      ∧ (sweep_loop th students ok now entries st).1.last_disappear_check
          = st.last_disappear_check
      ∧ (∀ k, k ∈ st.session_logged →
          k ∈ (sweep_loop th students ok now entries st).1.session_logged)
      ∧ ∀ r ∈ (sweep_loop th students ok now entries st).2,
          (∃ lt0, (r.name, lt0) ∈ entries ∧ (now : Int) - (lt0 : Int) > th)
          ∧ (r.name ++ ":disappeared") ∉ st.session_logged
          ∧ (r.name ++ ":disappeared")
              ∈ (sweep_loop th students ok now entries st).1.session_logged
  | [], st => ⟨rfl, rfl, fun _ h => h, fun _ hr => nomatch hr⟩
  | e :: rest, st => by
    obtain ⟨s1ls, s1dc, s1mono, s1rec⟩ := sweepOne_spec th students ok now e st
    obtain ⟨rls, rdc, rmono, rrec⟩ := sweep_loop_spec th students ok now rest
      (sweepOne th students ok now e st).1
    refine ⟨rls.trans s1ls, rdc.trans s1dc, fun k hk => rmono k (s1mono k hk), ?_⟩
    intro r hr
    rcases List.mem_append.mp hr with hr | hr
    · obtain ⟨hname, hgt, hnotin, hin⟩ := s1rec r hr
      refine ⟨⟨e.2, ?_, hgt⟩, by rw [hname]; exact hnotin, rmono _ (hname ▸ hin)⟩
      rw [hname]
      simp
    · obtain ⟨⟨lt0, hmem, hgt⟩, hnotin1, hin⟩ := rrec r hr
      exact ⟨⟨lt0, List.mem_cons_of_mem e hmem, hgt⟩,
        fun hc => hnotin1 (s1mono _ hc), hin⟩

/-- C6: a "Disappeared" record is emitted only while a schedule is
active, only when at least the recheck interval has elapsed since the
previous sweep, only for a student whose LastSeen age exceeds
disappearanceThreshold minutes, only if that student's :disappeared key
was not already marked (so at most once per student before a session
reset — the key is marked in the resulting state and marked keys are
preserved); and the sweep never removes or changes LastSeen entries. -/
theorem C6_disappearance (interval dm : Int) (schedule : Option ScheduleRow)
    (students : List (String × Int)) (ok : String → Bool) (now : Nat)
    (st : SessionState) :
    (check_disappearances interval dm schedule students ok now st).1.last_seen
      = st.last_seen
    ∧ (∀ k, k ∈ st.session_logged →
        k ∈ (check_disappearances interval dm schedule students ok now st).1.session_logged)
    ∧ ∀ r ∈ (check_disappearances interval dm schedule students ok now st).2,
        schedule ≠ none
        ∧ interval ≤ (now : Int) - (st.last_disappear_check : Int)
        ∧ (∃ lt0, (r.name, lt0) ∈ st.last_seen
            ∧ (now : Int) - (lt0 : Int) > dm * 60)
        ∧ (r.name ++ ":disappeared") ∉ st.session_logged
        ∧ (r.name ++ ":disappeared")
            ∈ (check_disappearances interval dm schedule students ok now st).1.session_logged := by
  by_cases hint : (now : Int) - (st.last_disappear_check : Int) < interval
  · simp [check_disappearances, hint]
  · cases schedule with
    | none => simp [check_disappearances, hint]
    | some s =>
      obtain ⟨hls, hdc, hmono, hrec⟩ := sweep_loop_spec (dm * 60) students ok now
        st.last_seen { st with last_disappear_check := now }
      have hres : check_disappearances interval dm (some s) students ok now st
          = sweep_loop (dm * 60) students ok now st.last_seen
              { st with last_disappear_check := now } := by
        simp [check_disappearances, hint]
      rw [hres]
      refine ⟨hls, hmono, ?_⟩
      intro r hr
      obtain ⟨hex, hnotin, hin⟩ := hrec r hr
      exact ⟨by simp, le_of_not_lt hint, hex, hnotin, hin⟩

/-- C6 witness: a due sweep that reports Alice leaves her LastSeen entry
in place. -/
theorem C6_witness :
    (check_disappearances 300 15
        (some ⟨1, "Monday", "09:00", "10:00", "Math", true⟩) [("Alice", 1)]
        (fun _ => true) 1000 ⟨[], [("Alice", 10)], 0, none⟩).1.last_seen
      = [("Alice", 10)] :=
  (C6_disappearance 300 15 (some ⟨1, "Monday", "09:00", "10:00", "Math", true⟩)
    [("Alice", 1)] (fun _ => true) 1000 ⟨[], [("Alice", 10)], 0, none⟩).1

end SmartPresence
